import Mathlib

/-!
Shallow embedding of the particle-field engine of the gesture-particles
repository: the shape generators (src/utils/geometry.ts), the gesture-signal
extractor (src/components/HandTracker.tsx, predictWebcam), and the smoothing
and per-particle transform of the animation loop (the Particles useFrame body).
JavaScript numbers are modelled as real numbers; Math.random() is modelled as
reading successive values from a stream u : ℕ → ℝ of draws in [0, 1).
-/

open Real

namespace GP

noncomputable section

/-- ParticleShape (src/types): string enum with five values; `unknown` models
any other string value reaching generateParticles at runtime, which the
switch statement sends to its default branch. -/
inductive ParticleShape where
  | GALAXY
  | HEART
  | FLOWER
  | SATURN
  | FIREWORKS
  | unknown (s : String)

/-- PARTICLE_COUNT from src/types. -/
def PARTICLE_COUNT : ℕ := 4000

/-- Point3 of the data model: a real 3D coordinate (THREE.Vector3). -/
structure Vec3 where
  x : ℝ
  y : ℝ
  z : ℝ

/-- randomSpherePoint (src/utils/geometry.ts lines 5-12): a point at distance
r from the origin with direction given by the uniform-area spherical
parametrization; u1 and u2 are the two Math.random() draws (theta, then phi). -/
def randomSpherePoint (r u1 u2 : ℝ) : Vec3 :=
  let theta := 2 * π * u1
  let phi := Real.arccos (2 * u2 - 1)
  ⟨r * Real.sin phi * Real.cos theta,
   r * Real.sin phi * Real.sin theta,
   r * Real.cos phi⟩

/-- One iteration of the generateParticles loop (src/utils/geometry.ts lines
17-102): the switch body producing one particle. u is the stream of
Math.random() draws for this iteration in source evaluation order; the second
component is the number of draws consumed (the heart and saturn cases consume
a variable number of draws). The draw u 1 of the heart case is rNoise, taken
in the source but never used. -/
def genPoint (shape : ParticleShape) (u : ℕ → ℝ) : Vec3 × ℕ :=
  match shape with
  | .HEART =>
    let t := u 0 * π * 2
    let x := (16 * Real.sin t ^ 3) * 0.15 + (u 2 - 0.5)
    let y := (13 * Real.cos t - 5 * Real.cos (2 * t) - 2 * Real.cos (3 * t)
        - Real.cos (4 * t)) * 0.15 + (u 3 - 0.5)
    let z := (u 4 - 0.5) * 2
    if u 5 > 0.5 then
      let s := u 6
      (⟨x * s, y * s, z * s⟩, 7)
    else
      (⟨x, y, z⟩, 6)
  | .GALAXY =>
    let angle := u 0 * π * 2 * 3
    let radius := u 1 * 5
    let spiralOffset := (0.5 : ℝ)
    (⟨(radius + spiralOffset * angle) * Real.cos angle * 0.3,
      (u 2 - 0.5) * (10 - radius) * 0.1,
      (radius + spiralOffset * angle) * Real.sin angle * 0.3⟩, 3)
  | .SATURN =>
    if u 0 > 0.6 then
      (randomSpherePoint 1.5 (u 1) (u 2), 3)
    else
      let ringRad := 2.0 + u 1 * 2.5
      let theta := u 2 * π * 2
      (⟨ringRad * Real.cos theta, (u 3 - 0.5) * 0.1, ringRad * Real.sin theta⟩, 4)
  | .FLOWER =>
    let thetaFl := u 0 * π * 2
    let radFl := Real.cos (4 * thetaFl) * 3 + 1
    let phiFl := (u 1 - 0.5) * π * 0.5
    (⟨radFl * Real.cos thetaFl * Real.cos phiFl,
      radFl * Real.sin thetaFl * Real.cos phiFl,
      radFl * Real.sin phiFl⟩, 2)
  | .FIREWORKS =>
    (randomSpherePoint (u 0 * 4) (u 1) (u 2), 3)
  | .unknown _ =>
    (⟨(u 0 - 0.5) * 10, (u 1 - 0.5) * 10, (u 2 - 0.5) * 10⟩, 3)

/-- The generateParticles loop: n particles written as flat x, y, z triples,
advancing the draw stream by the number of draws each particle consumed. -/
def genAux (shape : ParticleShape) (u : ℕ → ℝ) : ℕ → List ℝ
  | 0 => []
  | n + 1 =>
    let pc := genPoint shape u
    pc.1.x :: pc.1.y :: pc.1.z :: genAux shape (fun k => u (k + pc.2)) n

/-- generateParticles (src/utils/geometry.ts lines 14-105): the flat
positions buffer of PARTICLE_COUNT particles. -/
def generateParticles (shape : ParticleShape) (u : ℕ → ℝ) : List ℝ :=
  genAux shape u PARTICLE_COUNT

/-- The Math.random() contract: every draw lies in [0, 1). -/
def UnitStream (u : ℕ → ℝ) : Prop := ∀ n, 0 ≤ u n ∧ u n < 1

theorem genAux_length (shape : ParticleShape) (u : ℕ → ℝ) (n : ℕ) :
    (genAux shape u n).length = 3 * n := by
  induction n generalizing u with
  | zero => simp [genAux]
  | succ n ih => simp [genAux, ih]; ring

theorem abs_mul_cos_le (a t : ℝ) : |a * Real.cos t| ≤ |a| := by
  rw [abs_mul]
  exact mul_le_of_le_one_right (abs_nonneg a) (Real.abs_cos_le_one t)

theorem abs_mul_sin_le (a t : ℝ) : |a * Real.sin t| ≤ |a| := by
  rw [abs_mul]
  exact mul_le_of_le_one_right (abs_nonneg a) (Real.abs_sin_le_one t)

theorem abs_mul_le {a b c d : ℝ} (ha : |a| ≤ c) (hb : |b| ≤ d) : |a * b| ≤ c * d := by
  rw [abs_mul]
  exact mul_le_mul ha hb (abs_nonneg b) (le_trans (abs_nonneg a) ha)

theorem abs_mul_const_le {a c k : ℝ} (ha : |a| ≤ c) (hk : 0 ≤ k) : |a * k| ≤ c * k := by
  rw [abs_mul, abs_of_nonneg hk]
  exact mul_le_mul_of_nonneg_right ha hk

theorem randomSpherePoint_abs_le (r u1 u2 : ℝ) :
    |(randomSpherePoint r u1 u2).x| ≤ |r| ∧
    |(randomSpherePoint r u1 u2).y| ≤ |r| ∧
    |(randomSpherePoint r u1 u2).z| ≤ |r| := by
  refine ⟨?_, ?_, ?_⟩ <;> simp only [randomSpherePoint]
  · exact le_trans (abs_mul_cos_le _ _) (abs_mul_sin_le _ _)
  · exact le_trans (abs_mul_sin_le _ _) (abs_mul_sin_le _ _)
  · exact abs_mul_cos_le _ _

theorem genPoint_abs_le (shape : ParticleShape) (u : ℕ → ℝ) (hu : UnitStream u) :
    |(genPoint shape u).1.x| ≤ 30 ∧ |(genPoint shape u).1.y| ≤ 30 ∧
    |(genPoint shape u).1.z| ≤ 30 := by
  cases shape with
  | HEART =>
    have hs3 : |Real.sin (u 0 * π * 2) ^ 3| ≤ 1 := by
      rw [abs_pow]
      exact pow_le_one₀ (abs_nonneg _) (Real.abs_sin_le_one _)
    obtain ⟨hs3l, hs3r⟩ := abs_le.1 hs3
    obtain ⟨hc1l, hc1r⟩ := abs_le.1 (Real.abs_cos_le_one (u 0 * π * 2))
    obtain ⟨hc2l, hc2r⟩ := abs_le.1 (Real.abs_cos_le_one (2 * (u 0 * π * 2)))
    obtain ⟨hc3l, hc3r⟩ := abs_le.1 (Real.abs_cos_le_one (3 * (u 0 * π * 2)))
    obtain ⟨hc4l, hc4r⟩ := abs_le.1 (Real.abs_cos_le_one (4 * (u 0 * π * 2)))
    have hx : |(16 * Real.sin (u 0 * π * 2) ^ 3) * 0.15 + (u 2 - 0.5)| ≤ 30 := by
      rw [abs_le]
      constructor <;> nlinarith [(hu 2).1, (hu 2).2]
    have hy : |(13 * Real.cos (u 0 * π * 2) - 5 * Real.cos (2 * (u 0 * π * 2))
        - 2 * Real.cos (3 * (u 0 * π * 2)) - Real.cos (4 * (u 0 * π * 2))) * 0.15
        + (u 3 - 0.5)| ≤ 30 := by
      rw [abs_le]
      constructor <;> nlinarith [(hu 3).1, (hu 3).2]
    have hz : |(u 4 - 0.5) * 2| ≤ 30 := by
      rw [abs_le]
      constructor <;> nlinarith [(hu 4).1, (hu 4).2]
    have hs : |u 6| ≤ 1 := abs_le.mpr ⟨by linarith [(hu 6).1], le_of_lt (hu 6).2⟩
    by_cases h : u 5 > 0.5
    · simp only [genPoint, if_pos h]
      refine ⟨?_, ?_, ?_⟩
      · calc |_ * u 6| ≤ 30 * 1 := abs_mul_le hx hs
          _ = 30 := by norm_num
      · calc |_ * u 6| ≤ 30 * 1 := abs_mul_le hy hs
          _ = 30 := by norm_num
      · calc |_ * u 6| ≤ 30 * 1 := abs_mul_le hz hs
          _ = 30 := by norm_num
    · simp only [genPoint, if_neg h]
      exact ⟨hx, hy, hz⟩
  | GALAXY =>
    have hang0 : 0 ≤ u 0 * π * 2 * 3 := by nlinarith [(hu 0).1, Real.pi_pos]
    have hang1 : u 0 * π * 2 * 3 ≤ 24 := by
      nlinarith [(hu 0).1, (hu 0).2, Real.pi_pos, Real.pi_le_four]
    have hrad0 : 0 ≤ u 1 * 5 := by nlinarith [(hu 1).1]
    have hrad1 : u 1 * 5 ≤ 5 := by nlinarith [(hu 1).2]
    have ha : |u 1 * 5 + 0.5 * (u 0 * π * 2 * 3)| ≤ 17 := by
      rw [abs_le]; constructor <;> linarith
    have hu2 : |u 2 - 0.5| ≤ 0.5 := by
      rw [abs_le]; constructor <;> linarith [(hu 2).1, (hu 2).2]
    have hr10 : |10 - u 1 * 5| ≤ 10 := by
      rw [abs_le]; constructor <;> linarith
    refine ⟨?_, ?_, ?_⟩ <;> simp only [genPoint]
    · have h1 := le_trans (abs_mul_cos_le (u 1 * 5 + 0.5 * (u 0 * π * 2 * 3))
        (u 0 * π * 2 * 3)) ha
      have h2 := abs_mul_const_le h1 (show (0:ℝ) ≤ 0.3 by norm_num)
      linarith
    · have h1 := abs_mul_le hu2 hr10
      have h2 := abs_mul_const_le h1 (show (0:ℝ) ≤ 0.1 by norm_num)
      linarith
    · have h1 := le_trans (abs_mul_sin_le (u 1 * 5 + 0.5 * (u 0 * π * 2 * 3))
        (u 0 * π * 2 * 3)) ha
      have h2 := abs_mul_const_le h1 (show (0:ℝ) ≤ 0.3 by norm_num)
      linarith
  | SATURN =>
    by_cases h : u 0 > 0.6
    · have h15 : |(1.5 : ℝ)| ≤ 30 := by
        rw [abs_of_nonneg (by norm_num : (0:ℝ) ≤ 1.5)]; norm_num
      obtain ⟨hx, hy, hz⟩ := randomSpherePoint_abs_le 1.5 (u 1) (u 2)
      simp only [genPoint, if_pos h]
      exact ⟨le_trans hx h15, le_trans hy h15, le_trans hz h15⟩
    · have hr : |2.0 + u 1 * 2.5| ≤ 4.5 := by
        rw [abs_le]; constructor <;> nlinarith [(hu 1).1, (hu 1).2]
      have h1 : |u 3 - 0.5| ≤ 0.5 := by
        rw [abs_le]; constructor <;> linarith [(hu 3).1, (hu 3).2]
      simp only [genPoint, if_neg h]
      refine ⟨?_, ?_, ?_⟩
      · exact le_trans (abs_mul_cos_le _ _) (le_trans hr (by norm_num))
      · have h2 := abs_mul_const_le h1 (show (0:ℝ) ≤ 0.1 by norm_num)
        linarith
      · exact le_trans (abs_mul_sin_le _ _) (le_trans hr (by norm_num))
  | FLOWER =>
    obtain ⟨hcl, hcr⟩ := abs_le.1 (Real.abs_cos_le_one (4 * (u 0 * π * 2)))
    have hrad : |Real.cos (4 * (u 0 * π * 2)) * 3 + 1| ≤ 4 := by
      rw [abs_le]; constructor <;> linarith
    refine ⟨?_, ?_, ?_⟩ <;> simp only [genPoint]
    · exact le_trans (abs_mul_cos_le _ _)
        (le_trans (abs_mul_cos_le _ _) (le_trans hrad (by norm_num)))
    · exact le_trans (abs_mul_cos_le _ _)
        (le_trans (abs_mul_sin_le _ _) (le_trans hrad (by norm_num)))
    · exact le_trans (abs_mul_sin_le _ _) (le_trans hrad (by norm_num))
  | FIREWORKS =>
    have hr : |u 0 * 4| ≤ 30 := by
      rw [abs_le]; constructor <;> nlinarith [(hu 0).1, (hu 0).2]
    obtain ⟨hx, hy, hz⟩ := randomSpherePoint_abs_le (u 0 * 4) (u 1) (u 2)
    simp only [genPoint]
    exact ⟨le_trans hx hr, le_trans hy hr, le_trans hz hr⟩
  | unknown s =>
    refine ⟨?_, ?_, ?_⟩ <;> simp only [genPoint] <;> rw [abs_le] <;>
      constructor
    · linarith [(hu 0).1, (hu 0).2]
    · linarith [(hu 0).1, (hu 0).2]
    · linarith [(hu 1).1, (hu 1).2]
    · linarith [(hu 1).1, (hu 1).2]
    · linarith [(hu 2).1, (hu 2).2]
    · linarith [(hu 2).1, (hu 2).2]

theorem genAux_mem_abs_le (shape : ParticleShape) (n : ℕ) :
    ∀ u : ℕ → ℝ, UnitStream u → ∀ r ∈ genAux shape u n, |r| ≤ 30 := by
  induction n with
  | zero => intro u hu r hr; simp [genAux] at hr
  | succ n ih =>
    intro u hu r hr
    have hshift : UnitStream (fun k => u (k + (genPoint shape u).2)) :=
      fun k => hu _
    simp only [genAux, List.mem_cons] at hr
    obtain h | h | h | h := hr
    · exact h ▸ (genPoint_abs_le shape u hu).1
    · exact h ▸ (genPoint_abs_le shape u hu).2.1
    · exact h ▸ (genPoint_abs_le shape u hu).2.2
    · exact ih _ hshift r h

/-- C1: for every ParticleShape value, including an unrecognized one,
generateParticles returns a buffer of exactly 3 · PARTICLE_COUNT float entries
(PARTICLE_COUNT = 4000 points), and every coordinate in the returned buffer is
finite: assuming every Math.random() draw lies in [0, 1), every entry has
absolute value at most 30 (in particular no NaN and no infinity arises). -/
theorem C1_generateParticles_count_and_finite (shape : ParticleShape)
    (u : ℕ → ℝ) (hu : UnitStream u) :
    (generateParticles shape u).length = 3 * PARTICLE_COUNT ∧
    ∀ r ∈ generateParticles shape u, |r| ≤ 30 :=
  ⟨genAux_length shape u PARTICLE_COUNT,
   genAux_mem_abs_le shape PARTICLE_COUNT u hu⟩

theorem C1_witness :
    UnitStream (fun _ => (1:ℝ)/2) ∧
    ((generateParticles (ParticleShape.unknown "Cube") (fun _ => (1:ℝ)/2)).length
        = 3 * PARTICLE_COUNT ∧
      ∀ r ∈ generateParticles (ParticleShape.unknown "Cube") (fun _ => (1:ℝ)/2),
        |r| ≤ 30) :=
  ⟨fun _ => by norm_num,
   C1_generateParticles_count_and_finite (ParticleShape.unknown "Cube")
     (fun _ => (1:ℝ)/2) (fun _ => by norm_num)⟩

/-- A hand landmark's normalized planar coordinates (only x and y are
consumed by predictWebcam). -/
structure Point2 where
  x : ℝ
  y : ℝ

/-- InteractionData (src/App.tsx): the sample predictWebcam emits — scale,
planar position offset, and 3-axis rotation. -/
structure InteractionData where
  scale : ℝ
  posX : ℝ
  posY : ℝ
  rotX : ℝ
  rotY : ℝ
  rotZ : ℝ

/-- JavaScript Math.atan2 on real arguments. -/
def atan2 (y x : ℝ) : ℝ :=
  if 0 < x then Real.arctan (y / x)
  else if x < 0 then
    (if 0 ≤ y then Real.arctan (y / x) + π else Real.arctan (y / x) - π)
  else
    (if 0 < y then π / 2 else if y < 0 then -π / 2 else 0)

/-- The neutral interaction values predictWebcam initializes each cycle
(src/components/HandTracker.tsx lines 83-88), emitted unchanged whenever no
branch overwrites them. -/
def neutralSample : InteractionData :=
  { scale := 1.0, posX := 0, posY := 0, rotX := 0, rotY := 0, rotZ := 0 }

/-- The two-hand branch of predictWebcam (src/components/HandTracker.tsx
lines 92-123). A missing landmark index faults in JavaScript (reading .x of
undefined throws, so no sample is emitted that cycle); this is modelled by
none. -/
def extractTwo (hand1 hand2 : List Point2) : Option InteractionData :=
  match hand1.get? 0, hand2.get? 0 with
  | some w1, some w2 =>
    let dist := Real.sqrt ((w1.x - w2.x) ^ 2 + (w1.y - w2.y) ^ 2)
    let clampedDist := max 0.1 (min dist 0.8)
    let avgX := (w1.x + w2.x) / 2
    let avgY := (w1.y + w2.y) / 2
    some { scale := 0.5 + ((clampedDist - 0.1) / 0.7) * 2.0
           posX := (0.5 - avgX) * 8
           posY := -(avgY - 0.5) * 6
           rotX := (avgY - 0.5) * 2.0
           rotY := (0.5 - avgX) * 2.0
           rotZ := -atan2 (w2.y - w1.y) (w2.x - w1.x) }
  | _, _ => none

/-- The one-hand branch of predictWebcam (src/components/HandTracker.tsx
lines 125-148); missing required indices 4, 8 or 0 fault, modelled by none. -/
def extractOne (hand : List Point2) : Option InteractionData :=
  match hand.get? 4, hand.get? 8, hand.get? 0 with
  | some thumb, some index, some wrist =>
    let dist := Real.sqrt ((thumb.x - index.x) ^ 2 + (thumb.y - index.y) ^ 2)
    let clampedDist := max 0.02 (min dist 0.2)
    some { scale := 0.5 + ((clampedDist - 0.02) / 0.18) * 1.5
           posX := (0.5 - wrist.x) * 8
           posY := -(wrist.y - 0.5) * 6
           rotX := (wrist.y - 0.5) * 3.0
           rotY := (0.5 - wrist.x) * 3.0
           rotZ := 0 }
  | _, _, _ => none

/-- The per-frame gesture extraction of predictWebcam
(src/components/HandTracker.tsx lines 83-155): hand counts other than 1 and 2
(zero hands, or more than two) leave the neutral initial values in place. -/
def extract? (hands : List (List Point2)) : Option InteractionData :=
  if hands.length = 2 then extractTwo (hands.getD 0 []) (hands.getD 1 [])
  else if hands.length = 1 then extractOne (hands.getD 0 [])
  else some neutralSample

theorem extractTwo_eq (h1 h2 : List Point2) (w1 w2 : Point2)
    (hw1 : h1.get? 0 = some w1) (hw2 : h2.get? 0 = some w2) :
    extractTwo h1 h2 = some
      { scale := 0.5 + ((max 0.1 (min (Real.sqrt ((w1.x - w2.x) ^ 2
            + (w1.y - w2.y) ^ 2)) 0.8) - 0.1) / 0.7) * 2.0
        posX := (0.5 - (w1.x + w2.x) / 2) * 8
        posY := -((w1.y + w2.y) / 2 - 0.5) * 6
        rotX := ((w1.y + w2.y) / 2 - 0.5) * 2.0
        rotY := (0.5 - (w1.x + w2.x) / 2) * 2.0
        rotZ := -atan2 (w2.y - w1.y) (w2.x - w1.x) } := by
  unfold extractTwo
  rw [hw1, hw2]

theorem extract?_two (h1 h2 : List Point2) :
    extract? [h1, h2] = extractTwo h1 h2 := rfl

theorem extract?_one (h : List Point2) :
    extract? [h] = extractOne h := rfl

/-- Concrete two-hand evaluation at wrists (0.3, 0.5) and (0.7, 0.5). -/
theorem extractTwo_eval :
    extractTwo [⟨0.3, 0.5⟩] [⟨0.7, 0.5⟩] = some
      { scale := 0.5 + (0.3 / 0.7) * 2.0, posX := 0, posY := 0,
        rotX := 0, rotY := 0, rotZ := 0 } := by
  have base := extractTwo_eq [⟨0.3, 0.5⟩] [⟨0.7, 0.5⟩] ⟨0.3, 0.5⟩ ⟨0.7, 0.5⟩ rfl rfl
  dsimp only at base
  rw [base]
  have hsqrt : Real.sqrt (((0.3:ℝ) - 0.7) ^ 2 + ((0.5:ℝ) - 0.5) ^ 2) = 0.4 := by
    rw [show ((0.3:ℝ) - 0.7) ^ 2 + ((0.5:ℝ) - 0.5) ^ 2 = 0.4 ^ 2 by norm_num,
      Real.sqrt_sq (by norm_num : (0:ℝ) ≤ 0.4)]
  have hatan : atan2 ((0.5:ℝ) - 0.5) ((0.7:ℝ) - 0.3) = 0 := by
    unfold atan2
    rw [if_pos (by norm_num : (0:ℝ) < 0.7 - 0.3)]
    norm_num [Real.arctan_zero]
  rw [hsqrt, hatan]
  norm_num [min_def, max_def]

/-- C2 counterexample: with three detected hands whose first two wrists are
(0.3, 0.5) and (0.7, 0.5), predictWebcam emits the neutral sample — the input
is neither rejected nor treated as the first two hands — while the two-hand
result on the first two hands has scale 0.5 + (0.3/0.7)·2.0 ≠ 1. -/
theorem C2_counterexample :
    extract? [[⟨0.3, 0.5⟩], [⟨0.7, 0.5⟩], [⟨0.5, 0.5⟩]] = some neutralSample ∧
    extract? [[⟨0.3, 0.5⟩], [⟨0.7, 0.5⟩]] = some
      { scale := 0.5 + (0.3 / 0.7) * 2.0, posX := 0, posY := 0,
        rotX := 0, rotY := 0, rotZ := 0 } ∧
    (0.5 + (0.3 / 0.7) * 2.0 : ℝ) ≠ neutralSample.scale := by
  refine ⟨rfl, ?_, ?_⟩
  · rw [extract?_two]; exact extractTwo_eval
  · show (0.5 + (0.3 / 0.7) * 2.0 : ℝ) ≠ 1.0
    norm_num

/-- C2 amended: on every input with more than two detected hands,
predictWebcam emits the neutral sample (scale 1, offset (0, 0), rotation
(0, 0, 0)) — hand counts other than 1 and 2 fall through both branches — and
never crashes on such input. -/
theorem C2_amended_many_hands (hands : List (List Point2))
    (h : 2 < hands.length) :
    extract? hands = some neutralSample := by
  unfold extract?
  rw [if_neg (by omega), if_neg (by omega)]

theorem C2_witness :
    2 < ([[⟨0.3, 0.5⟩], [⟨0.7, 0.5⟩], [⟨0.5, 0.5⟩]] : List (List Point2)).length ∧
    extract? [[⟨0.3, 0.5⟩], [⟨0.7, 0.5⟩], [⟨0.5, 0.5⟩]] = some neutralSample :=
  ⟨by norm_num, C2_amended_many_hands _ (by norm_num)⟩

/-- Modelled from the spec (§7): clamping a coordinate into [0, 1]. -/
def clamp01 (v : ℝ) : ℝ := max 0 (min v 1)

/-- Modelled from the spec (§7 error handling): the extractor variant that
clamps every consumed landmark coordinate into [0, 1] before use; stated only
for comparison against the source extractor. -/
def clampedExtract (hands : List (List Point2)) : Option InteractionData :=
  extract? (hands.map (fun h => h.map (fun p => ⟨clamp01 p.x, clamp01 p.y⟩)))

/-- C3 counterexample: with wrists (-1, 0.5) and (0.5, 0.5) — the first one
out of range — the source extractor emits offset.x = 6, while the
clamp-before-use extractor required by the claim emits offset.x = 2; and a
one-hand input missing required index 4 faults (no sample) instead of being
treated as absent (which would emit the neutral sample). -/
theorem C3_counterexample :
    extract? [[⟨-1, 0.5⟩], [⟨0.5, 0.5⟩]] = some
      { scale := 2.5, posX := 6, posY := 0, rotX := 0, rotY := 1.5, rotZ := 0 } ∧
    clampedExtract [[⟨-1, 0.5⟩], [⟨0.5, 0.5⟩]] = some
      { scale := 0.5 + (0.4 / 0.7) * 2.0, posX := 2, posY := 0, rotX := 0,
        rotY := 0.5, rotZ := 0 } ∧
    (6 : ℝ) ≠ 2 ∧
    extract? [[⟨0.5, 0.5⟩]] = none := by
  refine ⟨?_, ?_, by norm_num, rfl⟩
  · rw [extract?_two]
    have base := extractTwo_eq [⟨-1, 0.5⟩] [⟨0.5, 0.5⟩] ⟨-1, 0.5⟩ ⟨0.5, 0.5⟩ rfl rfl
    dsimp only at base
    rw [base]
    have hsqrt : Real.sqrt (((-1:ℝ) - 0.5) ^ 2 + ((0.5:ℝ) - 0.5) ^ 2) = 1.5 := by
      rw [show ((-1:ℝ) - 0.5) ^ 2 + ((0.5:ℝ) - 0.5) ^ 2 = 1.5 ^ 2 by norm_num,
        Real.sqrt_sq (by norm_num : (0:ℝ) ≤ 1.5)]
    have hatan : atan2 ((0.5:ℝ) - 0.5) ((0.5:ℝ) - -1) = 0 := by
      unfold atan2
      rw [if_pos (by norm_num : (0:ℝ) < 0.5 - -1)]
      norm_num [Real.arctan_zero]
    rw [hsqrt, hatan]
    norm_num [min_def, max_def]
  · have hmap : clampedExtract [[⟨-1, 0.5⟩], [⟨0.5, 0.5⟩]] =
        extract? [[⟨0, 0.5⟩], [⟨0.5, 0.5⟩]] := by
      unfold clampedExtract
      norm_num [clamp01, min_def, max_def]
    rw [hmap, extract?_two]
    have base := extractTwo_eq [⟨0, 0.5⟩] [⟨0.5, 0.5⟩] ⟨0, 0.5⟩ ⟨0.5, 0.5⟩ rfl rfl
    dsimp only at base
    rw [base]
    have hsqrt : Real.sqrt (((0:ℝ) - 0.5) ^ 2 + ((0.5:ℝ) - 0.5) ^ 2) = 0.5 := by
      rw [show ((0:ℝ) - 0.5) ^ 2 + ((0.5:ℝ) - 0.5) ^ 2 = 0.5 ^ 2 by norm_num,
        Real.sqrt_sq (by norm_num : (0:ℝ) ≤ 0.5)]
    have hatan : atan2 ((0.5:ℝ) - 0.5) ((0.5:ℝ) - 0) = 0 := by
      unfold atan2
      rw [if_pos (by norm_num : (0:ℝ) < 0.5 - 0)]
      norm_num [Real.arctan_zero]
    rw [hsqrt, hatan]
    norm_num [min_def, max_def]

/-- C3 amended: predictWebcam uses landmark coordinates exactly as received —
no clamping into [0, 1] happens before the offset/rotation formulas (only the
derived distances are clamped) — and a hand missing a required landmark index
faults for that cycle (no sample is emitted) rather than being treated as
absent. -/
theorem C3_amended_no_clamping (h1 h2 : List Point2) (w1 w2 : Point2)
    (hw1 : h1.get? 0 = some w1) (hw2 : h2.get? 0 = some w2)
    (hand : List Point2) (hmiss : hand.get? 4 = none) :
    (∃ s, extract? [h1, h2] = some s ∧
      s.posX = (0.5 - (w1.x + w2.x) / 2) * 8 ∧
      s.rotY = (0.5 - (w1.x + w2.x) / 2) * 2.0) ∧
    extract? [hand] = none := by
  constructor
  · exact ⟨_, by rw [extract?_two]; exact extractTwo_eq h1 h2 w1 w2 hw1 hw2,
      rfl, rfl⟩
  · rw [extract?_one]
    unfold extractOne
    rw [hmiss]

theorem C3_witness :
    ([⟨0.3, 0.5⟩] : List Point2).get? 0 = some ⟨0.3, 0.5⟩ ∧
    ([⟨0.5, 0.5⟩] : List Point2).get? 4 = none ∧
    ((∃ s, extract? [[⟨0.3, 0.5⟩], [⟨0.7, 0.5⟩]] = some s ∧
      s.posX = (0.5 - ((0.3:ℝ) + 0.7) / 2) * 8 ∧
      s.rotY = (0.5 - ((0.3:ℝ) + 0.7) / 2) * 2.0) ∧
    extract? [[⟨0.5, 0.5⟩]] = none) :=
  ⟨rfl, rfl,
   C3_amended_no_clamping [⟨0.3, 0.5⟩] [⟨0.7, 0.5⟩] ⟨0.3, 0.5⟩ ⟨0.7, 0.5⟩
     rfl rfl [⟨0.5, 0.5⟩] rfl⟩

theorem scaleFormulaTwo_mem {c : ℝ} (hl : 0.1 ≤ c) (hr : c ≤ 0.8) :
    0.5 ≤ 0.5 + (c - 0.1) / 0.7 * 2.0 ∧ 0.5 + (c - 0.1) / 0.7 * 2.0 ≤ 2.5 := by
  have h : (c - 0.1) / 0.7 * 2.0 = (c - 0.1) * (20 / 7) := by ring
  rw [h]
  constructor <;> linarith

theorem scaleFormulaOne_mem {c : ℝ} (hl : 0.02 ≤ c) (hr : c ≤ 0.2) :
    0.5 ≤ 0.5 + (c - 0.02) / 0.18 * 1.5 ∧
    0.5 + (c - 0.02) / 0.18 * 1.5 ≤ 2.5 := by
  have h : (c - 0.02) / 0.18 * 1.5 = (c - 0.02) * (25 / 3) := by ring
  rw [h]
  constructor <;> linarith

theorem extractTwo_scale_range (h1 h2 : List Point2) (s : InteractionData)
    (h : extractTwo h1 h2 = some s) : 0.5 ≤ s.scale ∧ s.scale ≤ 2.5 := by
  cases hg1 : h1.get? 0 with
  | none => unfold extractTwo at h; rw [hg1] at h; exact absurd h (by simp)
  | some w1 =>
    cases hg2 : h2.get? 0 with
    | none =>
      unfold extractTwo at h; rw [hg1, hg2] at h; exact absurd h (by simp)
    | some w2 =>
      rw [extractTwo_eq h1 h2 w1 w2 hg1 hg2] at h
      simp only [Option.some.injEq] at h
      subst h
      exact scaleFormulaTwo_mem (le_max_left _ _)
        (max_le (by norm_num) (min_le_right _ _))

theorem extractOne_scale_range (hand : List Point2) (s : InteractionData)
    (h : extractOne hand = some s) : 0.5 ≤ s.scale ∧ s.scale ≤ 2.5 := by
  cases hg4 : hand.get? 4 with
  | none => unfold extractOne at h; rw [hg4] at h; exact absurd h (by simp)
  | some thumb =>
    cases hg8 : hand.get? 8 with
    | none =>
      unfold extractOne at h; rw [hg4, hg8] at h; exact absurd h (by simp)
    | some index =>
      cases hg0 : hand.get? 0 with
      | none =>
        unfold extractOne at h; rw [hg4, hg8, hg0] at h
        exact absurd h (by simp)
      | some wrist =>
        unfold extractOne at h; rw [hg4, hg8, hg0] at h
        simp only [Option.some.injEq] at h
        subst h
        exact scaleFormulaOne_mem (le_max_left _ _)
          (max_le (by norm_num) (min_le_right _ _))

/-- C8: for every two-hand input whose wrist landmarks are w1 and w2, the
emitted scale equals 0.5 + ((clamp(dist(w1, w2), 0.1, 0.8) − 0.1)/0.7)·2.0
and lies in [0.5, 2.5]; in particular at wrists (0.3, 0.5) and (0.7, 0.5) the
emitted sample has scale 0.5 + (0.3/0.7)·2.0, offset.x = 0, and rotation.z =
−atan2(0, 0.4) = 0. -/
theorem C8_two_hand_scale (h1 h2 : List Point2) (w1 w2 : Point2)
    (hw1 : h1.get? 0 = some w1) (hw2 : h2.get? 0 = some w2) :
    (∃ s, extract? [h1, h2] = some s ∧
      s.scale = 0.5 + ((max 0.1 (min (Real.sqrt ((w1.x - w2.x) ^ 2
          + (w1.y - w2.y) ^ 2)) 0.8) - 0.1) / 0.7) * 2.0 ∧
      0.5 ≤ s.scale ∧ s.scale ≤ 2.5) ∧
    (∃ s, extract? [[⟨0.3, 0.5⟩], [⟨0.7, 0.5⟩]] = some s ∧
      s.scale = 0.5 + (0.3 / 0.7) * 2.0 ∧ s.posX = 0 ∧
      s.rotZ = -atan2 0 0.4 ∧ s.rotZ = 0) := by
  constructor
  · have hmem := scaleFormulaTwo_mem
      (le_max_left 0.1 (min (Real.sqrt ((w1.x - w2.x) ^ 2
        + (w1.y - w2.y) ^ 2)) 0.8))
      (max_le (by norm_num) (min_le_right (Real.sqrt ((w1.x - w2.x) ^ 2
        + (w1.y - w2.y) ^ 2)) 0.8))
    exact ⟨_, by rw [extract?_two]; exact extractTwo_eq h1 h2 w1 w2 hw1 hw2,
      rfl, hmem.1, hmem.2⟩
  · have hatan : atan2 (0:ℝ) 0.4 = 0 := by
      unfold atan2
      rw [if_pos (by norm_num : (0:ℝ) < 0.4)]
      norm_num [Real.arctan_zero]
    exact ⟨_, by rw [extract?_two]; exact extractTwo_eval, rfl, rfl,
      by rw [hatan]; norm_num, rfl⟩

theorem C8_witness :
    ([⟨0.3, 0.5⟩] : List Point2).get? 0 = some ⟨0.3, 0.5⟩ ∧
    ([⟨0.7, 0.5⟩] : List Point2).get? 0 = some ⟨0.7, 0.5⟩ ∧
    ((∃ s, extract? [[⟨0.3, 0.5⟩], [⟨0.7, 0.5⟩]] = some s ∧
      s.scale = 0.5 + ((max 0.1 (min (Real.sqrt (((0.3:ℝ) - 0.7) ^ 2
          + ((0.5:ℝ) - 0.5) ^ 2)) 0.8) - 0.1) / 0.7) * 2.0 ∧
      0.5 ≤ s.scale ∧ s.scale ≤ 2.5) ∧
    (∃ s, extract? [[⟨0.3, 0.5⟩], [⟨0.7, 0.5⟩]] = some s ∧
      s.scale = 0.5 + (0.3 / 0.7) * 2.0 ∧ s.posX = 0 ∧
      s.rotZ = -atan2 0 0.4 ∧ s.rotZ = 0)) :=
  ⟨rfl, rfl,
   C8_two_hand_scale [⟨0.3, 0.5⟩] [⟨0.7, 0.5⟩] ⟨0.3, 0.5⟩ ⟨0.7, 0.5⟩ rfl rfl⟩

/-- C10: whenever predictWebcam emits an interaction sample — any number of
detected hands, arbitrary (even out-of-range) landmark coordinates — its
scale lies in the closed interval [0.5, 2.5]: the distance is clamped before
the linear mapping and non-matching hand counts yield the neutral scale 1. -/
theorem C10_scale_range (hands : List (List Point2)) (s : InteractionData)
    (h : extract? hands = some s) : 0.5 ≤ s.scale ∧ s.scale ≤ 2.5 := by
  unfold extract? at h
  split_ifs at h
  · exact extractTwo_scale_range _ _ s h
  · exact extractOne_scale_range _ s h
  · simp only [Option.some.injEq] at h
    subst h
    show (0.5:ℝ) ≤ 1.0 ∧ (1.0:ℝ) ≤ 2.5
    norm_num

theorem C10_witness :
    extract? [] = some neutralSample ∧
    (0.5 ≤ neutralSample.scale ∧ neutralSample.scale ≤ 2.5) :=
  ⟨rfl, C10_scale_range [] neutralSample rfl⟩

/-- THREE.MathUtils.lerp, the smoother used throughout the useFrame body:
lerp x y t = (1 − t)·x + t·y, algebraically x + (y − x)·t. -/
def lerp (x y t : ℝ) : ℝ := (1 - t) * x + t * y

/-- The smoothing state of the Particles component: currentScaleRef,
currentPosRef, currentRotRef and the current-morph buffer currentPositions
(kept as a flat list of coordinates like the Float32Array). -/
structure SmoothState where
  scale : ℝ
  posX : ℝ
  posY : ℝ
  rotX : ℝ
  rotY : ℝ
  rotZ : ℝ
  curr : List ℝ

/-- The per-tick smoothing step of the Particles useFrame body
(src/components/UIControls.tsx, the animation loop of the Scene document):
scale is lerped toward the target with factor 0.15, position and rotation
axes with factor 0.1, and every morph coordinate moves toward its target by
lerpSpeed = 0.15. -/
def tick (st : SmoothState) (tgt : InteractionData) (targPos : List ℝ) :
    SmoothState :=
  { scale := lerp st.scale tgt.scale 0.15
    posX := lerp st.posX tgt.posX 0.1
    posY := lerp st.posY tgt.posY 0.1
    rotX := lerp st.rotX tgt.rotX 0.1
    rotY := lerp st.rotY tgt.rotY 0.1
    rotZ := lerp st.rotZ tgt.rotZ 0.1
    curr := List.zipWith (fun c t => c + (t - c) * 0.15) st.curr targPos }

theorem zipWith_getD (f : ℝ → ℝ → ℝ) (l1 l2 : List ℝ) (i : ℕ)
    (h1 : i < l1.length) (h2 : i < l2.length) :
    (List.zipWith f l1 l2).getD i 0 = f (l1.getD i 0) (l2.getD i 0) := by
  have hlen : i < (List.zipWith f l1 l2).length := by
    rw [List.length_zipWith]; omega
  rw [List.getD_eq_getElem _ _ hlen, List.getD_eq_getElem _ _ h1,
    List.getD_eq_getElem _ _ h2, List.getElem_zipWith]

/-- C4: on every animation tick, each coordinate of the current-morph buffer
moves toward the corresponding target-morph coordinate by the fixed fraction
0.15 (current += (target − current)·0.15), the smoothed scale uses factor
0.15, and the planar offset and every rotation axis use factor 0.1. -/
theorem C4_smoothing_constants (st : SmoothState) (tgt : InteractionData)
    (targPos : List ℝ) :
    (tick st tgt targPos).scale = st.scale + (tgt.scale - st.scale) * 0.15 ∧
    (tick st tgt targPos).posX = st.posX + (tgt.posX - st.posX) * 0.1 ∧
    (tick st tgt targPos).posY = st.posY + (tgt.posY - st.posY) * 0.1 ∧
    (tick st tgt targPos).rotX = st.rotX + (tgt.rotX - st.rotX) * 0.1 ∧
    (tick st tgt targPos).rotY = st.rotY + (tgt.rotY - st.rotY) * 0.1 ∧
    (tick st tgt targPos).rotZ = st.rotZ + (tgt.rotZ - st.rotZ) * 0.1 ∧
    ∀ i, i < st.curr.length → i < targPos.length →
      (tick st tgt targPos).curr.getD i 0 =
        st.curr.getD i 0 + (targPos.getD i 0 - st.curr.getD i 0) * 0.15 := by
  refine ⟨by unfold tick lerp; ring, by unfold tick lerp; ring,
    by unfold tick lerp; ring, by unfold tick lerp; ring,
    by unfold tick lerp; ring, by unfold tick lerp; ring, ?_⟩
  intro i h1 h2
  show (List.zipWith _ st.curr targPos).getD i 0 = _
  rw [zipWith_getD _ _ _ i h1 h2]

theorem C4_witness :
    (0 : ℕ) < ([1, 2] : List ℝ).length ∧ (0 : ℕ) < ([3, 4] : List ℝ).length ∧
    (tick ⟨1, 0, 0, 0, 0, 0, [1, 2]⟩ ⟨2, 1, 1, 1, 1, 1⟩ [3, 4]).curr.getD 0 0 =
      ([1, 2] : List ℝ).getD 0 0 +
        (([3, 4] : List ℝ).getD 0 0 - ([1, 2] : List ℝ).getD 0 0) * 0.15 :=
  ⟨by simp, by simp,
   (C4_smoothing_constants ⟨1, 0, 0, 0, 0, 0, [1, 2]⟩ ⟨2, 1, 1, 1, 1, 1⟩
     [3, 4]).2.2.2.2.2.2 0 (by simp) (by simp)⟩

/-- Iterating the program's smoothing step v ↦ lerp v T α with the target T
held constant over n ticks. -/
def lerpIter (a T v : ℝ) : ℕ → ℝ
  | 0 => v
  | n + 1 => lerp (lerpIter a T v n) T a

theorem lerpIter_sub (a T v : ℝ) (n : ℕ) :
    lerpIter a T v n - T = (1 - a) ^ n * (v - T) := by
  induction n with
  | zero => simp [lerpIter]
  | succ n ih =>
    show lerp (lerpIter a T v n) T a - T = _
    unfold lerp
    have : (1 - a) * (lerpIter a T v n) + a * T - T
        = (1 - a) * (lerpIter a T v n - T) := by ring
    rw [this, ih, pow_succ]
    ring

/-- C5: for every smoothed quantity driven by the program's lerp step with
factor a ∈ (0, 1) (the code uses 0.15 and 0.1) and a constant target T held
over ticks: after each tick the value lies between its previous value and the
target (never overshoots), its distance to the target decreases exactly by
the geometric factor (1 − a) — strictly, since a value starting at v ≠ T
stays distinct from T — and it never exactly equals T after finitely many
ticks. -/
theorem C5_smoothing_convergence (a T v : ℝ) (ha0 : 0 < a) (ha1 : a < 1)
    (hne : v ≠ T) (n : ℕ) :
    (min (lerpIter a T v n) T ≤ lerpIter a T v (n + 1) ∧
      lerpIter a T v (n + 1) ≤ max (lerpIter a T v n) T) ∧
    |lerpIter a T v (n + 1) - T| = (1 - a) * |lerpIter a T v n - T| ∧
    |lerpIter a T v (n + 1) - T| < |lerpIter a T v n - T| ∧
    lerpIter a T v n ≠ T := by
  have hpow : (0:ℝ) < (1 - a) ^ n := pow_pos (by linarith) n
  have hsub := lerpIter_sub a T v n
  have key : lerpIter a T v (n + 1) - T = (1 - a) * (lerpIter a T v n - T) := by
    rw [lerpIter_sub, lerpIter_sub, pow_succ]; ring
  have hdne : lerpIter a T v n - T ≠ 0 := by
    rw [hsub]
    exact mul_ne_zero (ne_of_gt hpow) (sub_ne_zero.2 hne)
  refine ⟨?_, ?_, ?_, fun hc => hdne (by rw [hc]; ring)⟩
  · rcases hdne.lt_or_lt with hneg | hpos
    · constructor
      · exact le_trans (min_le_left _ _) (by nlinarith)
      · exact le_trans (by nlinarith : lerpIter a T v (n + 1) ≤ T)
          (le_max_right _ _)
    · constructor
      · exact le_trans (min_le_right _ _) (by nlinarith)
      · exact le_trans (by nlinarith : lerpIter a T v (n + 1) ≤
          lerpIter a T v n) (le_max_left _ _)
  · rw [key, abs_mul, abs_of_nonneg (by linarith : (0:ℝ) ≤ 1 - a)]
  · rw [key, abs_mul, abs_of_nonneg (by linarith : (0:ℝ) ≤ 1 - a)]
    have habs : 0 < |lerpIter a T v n - T| := abs_pos.2 hdne
    nlinarith

theorem C5_witness :
    (0:ℝ) < 0.15 ∧ (0.15:ℝ) < 1 ∧ (0:ℝ) ≠ 1 ∧
    ((min (lerpIter 0.15 1 0 0) 1 ≤ lerpIter 0.15 1 0 (0 + 1) ∧
      lerpIter 0.15 1 0 (0 + 1) ≤ max (lerpIter 0.15 1 0 0) 1) ∧
    |lerpIter 0.15 1 0 (0 + 1) - 1| = (1 - 0.15) * |lerpIter 0.15 1 0 0 - 1| ∧
    |lerpIter 0.15 1 0 (0 + 1) - 1| < |lerpIter 0.15 1 0 0 - 1| ∧
    lerpIter 0.15 1 0 0 ≠ 1) :=
  ⟨by norm_num, by norm_num, by norm_num,
   C5_smoothing_convergence 0.15 1 0 (by norm_num) (by norm_num)
     (by norm_num) 0⟩

/-- Rotation about the z axis by angle a (counterclockwise). -/
def rotZax (a : ℝ) (v : Vec3) : Vec3 :=
  ⟨v.x * Real.cos a - v.y * Real.sin a, v.x * Real.sin a + v.y * Real.cos a, v.z⟩

/-- Rotation about the y axis by angle a. -/
def rotYax (a : ℝ) (v : Vec3) : Vec3 :=
  ⟨v.x * Real.cos a + v.z * Real.sin a, v.y,
   -(v.x * Real.sin a) + v.z * Real.cos a⟩

/-- Rotation about the x axis by angle a. -/
def rotXax (a : ℝ) (v : Vec3) : Vec3 :=
  ⟨v.x, v.y * Real.cos a - v.z * Real.sin a, v.y * Real.sin a + v.z * Real.cos a⟩

/-- The rotation applied per particle through applyQuaternion: the quaternion
is built with setFromEuler from a THREE.Euler in its default XYZ order, whose
rotation matrix is Rx·Ry·Rz (z applied first). -/
def rotEulerXYZ (x y z : ℝ) (v : Vec3) : Vec3 := rotXax x (rotYax y (rotZax z v))

/-- The breathing/final-scale computation of the useFrame loop (step B of
src/components/UIControls.tsx Particles): breathing = sin(t·2)·0.05 + 1,
suppressed exactly when |smoothedScale − 1.0| > 0.05. -/
def finalScaleOf (smoothedScale time : ℝ) : ℝ :=
  if |smoothedScale - 1.0| > 0.05 then smoothedScale
  else smoothedScale * (Real.sin (time * 2) * 0.05 + 1)

/-- The per-particle transform (steps B-D of the useFrame loop): rotate the
morphed base point by the smoothed Euler with the auto-spin term
time·0.05 added on the y axis, scale by finalScale, then translate x and y by
the smoothed planar offset (depth is never translated). -/
def compose (base : Vec3) (smoothedScale offX offY rx ry rz time : ℝ) : Vec3 :=
  let fs := finalScaleOf smoothedScale time
  let p := rotEulerXYZ rx (ry + time * 0.05) rz base
  ⟨p.x * fs + offX, p.y * fs + offY, p.z * fs⟩

/-- C6: with smoothedScale exactly 1.0, zero smoothed rotation, zero smoothed
offset and elapsedTime 0, the per-particle transform (breathing, rotation,
scale, translation) returns every base point unchanged. -/
theorem C6_identity (base : Vec3) : compose base 1.0 0 0 0 0 0 0 = base := by
  have hfs : finalScaleOf 1.0 0 = 1 := by
    unfold finalScaleOf
    rw [if_neg (by norm_num)]
    norm_num
  unfold compose
  rw [hfs]
  unfold rotEulerXYZ rotXax rotYax rotZax
  norm_num

/-- C7: the per-particle finalScale equals smoothedScale exactly — for every
elapsedTime — whenever |smoothedScale − 1.0| > 0.05, and equals
smoothedScale·(sin(elapsedTime·2)·0.05 + 1) whenever |smoothedScale − 1.0| ≤
0.05. -/
theorem C7_breathing_suppression (s time : ℝ) :
    (|s - 1.0| > 0.05 → finalScaleOf s time = s) ∧
    (|s - 1.0| ≤ 0.05 →
      finalScaleOf s time = s * (Real.sin (time * 2) * 0.05 + 1)) := by
  constructor
  · intro h
    unfold finalScaleOf
    rw [if_pos h]
  · intro h
    unfold finalScaleOf
    rw [if_neg (not_lt.2 h)]

theorem C7_witness :
    (|(1.2:ℝ) - 1.0| > 0.05 ∧ finalScaleOf 1.2 3 = 1.2) ∧
    (|(1.0:ℝ) - 1.0| ≤ 0.05 ∧
      finalScaleOf 1.0 0 = 1.0 * (Real.sin (0 * 2) * 0.05 + 1)) := by
  have h1 : |(1.2:ℝ) - 1.0| > 0.05 := by
    rw [show (1.2:ℝ) - 1.0 = 0.2 by norm_num,
      abs_of_nonneg (by norm_num : (0:ℝ) ≤ 0.2)]
    norm_num
  have h2 : |(1.0:ℝ) - 1.0| ≤ 0.05 := by norm_num
  exact ⟨⟨h1, (C7_breathing_suppression 1.2 3).1 h1⟩,
    ⟨h2, (C7_breathing_suppression 1.0 0).2 h2⟩⟩

/-- C9: a Fireworks particle is randomSpherePoint evaluated at radius
4·u₀ with the uniform-area spherical direction parametrized by the next two
draws: the point equals the scalar 4·u₀ times a unit direction vector, its
squared distance from the origin is exactly (4·u₀)², and the radius 4·u₀ is
linear in the uniform draw u₀ with range [0, 4) — radius uniform rather than
volume-uniform, hence denser near the center. -/
theorem C9_fireworks_point (u : ℕ → ℝ) (hu : UnitStream u) :
    genPoint ParticleShape.FIREWORKS u
      = (randomSpherePoint (u 0 * 4) (u 1) (u 2), 3) ∧
    (randomSpherePoint 1 (u 1) (u 2)).x ^ 2
      + (randomSpherePoint 1 (u 1) (u 2)).y ^ 2
      + (randomSpherePoint 1 (u 1) (u 2)).z ^ 2 = 1 ∧
    randomSpherePoint (u 0 * 4) (u 1) (u 2) =
      ⟨u 0 * 4 * (randomSpherePoint 1 (u 1) (u 2)).x,
       u 0 * 4 * (randomSpherePoint 1 (u 1) (u 2)).y,
       u 0 * 4 * (randomSpherePoint 1 (u 1) (u 2)).z⟩ ∧
    (genPoint ParticleShape.FIREWORKS u).1.x ^ 2
      + (genPoint ParticleShape.FIREWORKS u).1.y ^ 2
      + (genPoint ParticleShape.FIREWORKS u).1.z ^ 2 = (u 0 * 4) ^ 2 ∧
    0 ≤ u 0 * 4 ∧ u 0 * 4 < 4 := by
  have h1 := Real.sin_sq_add_cos_sq (2 * π * u 1)
  have h2 := Real.sin_sq_add_cos_sq (Real.arccos (2 * u 2 - 1))
  refine ⟨rfl, ?_, ?_, ?_, ?_, ?_⟩
  · simp only [randomSpherePoint]
    linear_combination Real.sin (Real.arccos (2 * u 2 - 1)) ^ 2 * h1 + h2
  · simp only [randomSpherePoint, Vec3.mk.injEq]
    refine ⟨by ring, by ring, by ring⟩
  · show (randomSpherePoint (u 0 * 4) (u 1) (u 2)).x ^ 2
      + (randomSpherePoint (u 0 * 4) (u 1) (u 2)).y ^ 2
      + (randomSpherePoint (u 0 * 4) (u 1) (u 2)).z ^ 2 = (u 0 * 4) ^ 2
    simp only [randomSpherePoint]
    linear_combination ((u 0 * 4) ^ 2 * Real.sin (Real.arccos (2 * u 2 - 1)) ^ 2)
      * h1 + (u 0 * 4) ^ 2 * h2
  · nlinarith [(hu 0).1]
  · nlinarith [(hu 0).2]

theorem C9_witness :
    UnitStream (fun _ => (1:ℝ)/2) ∧
    (genPoint ParticleShape.FIREWORKS (fun _ => (1:ℝ)/2)).1.x ^ 2
      + (genPoint ParticleShape.FIREWORKS (fun _ => (1:ℝ)/2)).1.y ^ 2
      + (genPoint ParticleShape.FIREWORKS (fun _ => (1:ℝ)/2)).1.z ^ 2
      = ((1:ℝ)/2 * 4) ^ 2 :=
  ⟨fun _ => by norm_num,
   (C9_fireworks_point (fun _ => (1:ℝ)/2) (fun _ => by norm_num)).2.2.2.1⟩

end

end GP
